import Mathlib

/-!
# Honeypot orchestration: `Builder.Run` and the cloud plugin

A shallow embedding of `builder/builder.go` (`Builder.Run`) and of the cloud
plugin exercised by `plugins/beelzebub-cloud_test.go`.

* Go `error` values are `GoError`; a `nil` error is `none`.
* Go slices are `Slice`, which keeps the `nil` slice apart from an empty one.
* Calls that leave the process (the cloud fetch, `InitService`, the request
  client) are answered by an environment and recorded in the outcome, so that
  "which calls were made, in which order" is a property of the result.
* `log.Fatalf` ends the process; it is the `Exit.fatal` outcome.
-/

namespace Honeypot

/-! ## Go values -/

/-- A non-nil Go `error`. `errorString` is what `errors.New` and `fmt.Errorf`
(without `%w`) build; `other` is an error of any other dynamic type, named by
`dyn`, as a collaborator may return. -/
inductive GoError where
  | errorString (s : String)
  | other (dyn : String) (s : String)
  deriving DecidableEq, Repr

/-- The method `Error()` of a Go error: its message. -/
def GoError.Error : GoError → String
  | .errorString s => s
  | .other _ s => s

/-- The function `errors.New`. -/
def errorsNew (s : String) : GoError := .errorString s

/-- A Go slice: `nil`, or a (possibly empty) sequence of elements. -/
inductive Slice (α : Type) where
  | nil
  | mk (elems : List α)
  deriving DecidableEq, Repr

/-- The elements a `range` loop visits. -/
def Slice.toList {α : Type} : Slice α → List α
  | .nil => []
  | .mk l => l

/-- The builtin `len`. -/
def Slice.len {α : Type} (s : Slice α) : Nat := s.toList.length

/-! ## Configuration records (package `parser`, as the tests show them) -/

/-- The record `parser.Command`: the regex source and the plugin name. -/
structure Command where
  RegexStr : String
  Plugin : String
  deriving DecidableEq, Repr

/-- The record `parser.Plugin`. -/
structure Plugin where
  LLMModel : String
  OpenAISecretKey : String
  deriving DecidableEq, Repr

/-- The record `parser.BeelzebubServiceConfiguration`. -/
structure BeelzebubServiceConfiguration where
  ApiVersion : String
  Protocol : String
  Address : String
  Description : String
  Commands : List Command
  ServerVersion : String
  ServerName : String
  PasswordRegex : String
  DeadlineTimeoutSeconds : Int
  Plugin : Plugin
  deriving DecidableEq, Repr

/-- The section `Core.BeelzebubCloud` of the core configuration. -/
structure BeelzebubCloud where
  Enabled : Bool
  URI : String
  AuthToken : String
  deriving DecidableEq, Repr

/-- The section `Core` of the core configuration (the part `Run` reads). -/
structure Core where
  BeelzebubCloud : BeelzebubCloud
  deriving DecidableEq, Repr

/-- The record `parser.BeelzebubCoreConfigurations`. -/
structure BeelzebubCoreConfigurations where
  Core : Core
  deriving DecidableEq, Repr

/-- The struct `Builder`: the fields `Run` reads or writes. The tracer, the
queue handles and the log file are passed through untouched by `Run`. -/
structure Builder where
  beelzebubServicesConfiguration : Slice BeelzebubServiceConfiguration
  beelzebubCoreConfigurations : BeelzebubCoreConfigurations
  deriving DecidableEq, Repr

/-! ## Protocol strategies and the protocol manager -/

/-- The four strategy instances `Run` creates. -/
inductive Strategy where
  | SSHStrategy
  | HTTPStrategy
  | TCPStrategy
  | MySQLStrategy
  deriving DecidableEq, Repr

/-- Modelled from the spec: the protocol manager of package `protocols`, which
is not among the sources. It "holds the currently selected strategy". -/
structure ProtocolManager where
  strategy : Strategy
  deriving DecidableEq, Repr

/-- Modelled from the spec: `protocols.InitProtocolManager`, which builds the
manager with the given strategy selected (the tracer argument is passed
through and plays no part here). -/
def InitProtocolManager (strategy : Strategy) : ProtocolManager := ⟨strategy⟩

/-- Modelled from the spec: `SetProtocolStrategy`, which "replaces the active
strategy reference". -/
def ProtocolManager.SetProtocolStrategy (_pm : ProtocolManager) (s : Strategy) :
    ProtocolManager := ⟨s⟩

/-- One `InitService` call as it happened: the strategy selected on the
manager at that moment, the configuration passed, and the error returned. -/
structure InitCall where
  strategy : Strategy
  config : BeelzebubServiceConfiguration
  err : Option GoError
  deriving DecidableEq, Repr

/-- What lies outside the process as seen from `Run`. `fetch uri token n` is
the answer of `InitBeelzebubCloud(uri, token).GetHoneypotsConfigurations()`
when `n` fetches were made before; `start hist s c` is the error with which
strategy `s` starts a listener for `c` after the calls `hist`. -/
structure World where
  fetch : String → String → Nat → Slice BeelzebubServiceConfiguration × Option GoError
  start : List InitCall → Strategy → BeelzebubServiceConfiguration → Option GoError

/-- Modelled from the spec: `InitService`, which "binds and starts the
currently-set strategy against `config`". -/
def ProtocolManager.InitService (w : World) (hist : List InitCall) (pm : ProtocolManager)
    (config : BeelzebubServiceConfiguration) : Option GoError :=
  w.start hist pm.strategy config

/-! ## `Builder.Run` -/

/-- How `Run` ends: it returns an error (or nil), or `log.Fatalf` ends the
process with a message. -/
inductive Exit where
  | returned (err : Option GoError)
  | fatal (msg : String)
  deriving DecidableEq, Repr

/-- The `switch` on the protocol name: the strategy each case selects, and
`none` for the `default` case. -/
def strategyFor (protocol : String) : Option Strategy :=
  if protocol = "http" then some .HTTPStrategy
  else if protocol = "ssh" then some .SSHStrategy
  else if protocol = "tcp" then some .TCPStrategy
  else if protocol = "mysql" then some .MySQLStrategy
  else none

/-- The `for ... range b.beelzebubServicesConfiguration` loop of `Run`, from
the manager state `pm` with the calls `hist` already made. It yields how the
loop ends and the `InitService` calls it made, in order. -/
def serviceLoop (w : World) :
    ProtocolManager → List InitCall → List BeelzebubServiceConfiguration → Exit × List InitCall
  | _, _, [] => (.returned none, [])
  | pm, hist, c :: rest =>
    match strategyFor c.Protocol with
    | none => (.fatal ("protocol " ++ c.Protocol ++ " not managed"), [])
    | some s =>
      let pm1 := pm.SetProtocolStrategy s
      let err := pm1.InitService w hist c
      let call : InitCall := ⟨pm1.strategy, c, err⟩
      match err with
      | some e =>
        (.returned (some (errorsNew
          ("error during init protocol: " ++ c.Protocol ++ ", " ++ e.Error))), [call])
      | none =>
        let r := serviceLoop w pm1 (hist ++ [call]) rest
        (r.1, call :: r.2)

/-- What `Run` did: how it ended, the builder afterwards, the cloud fetches
made (URI and token of each) and the `InitService` calls made, in order. -/
structure RunOutcome where
  exit : Exit
  builder : Builder
  fetches : List (String × String)
  calls : List InitCall

/-- The method `Builder.Run`. The metrics goroutine started first runs
concurrently with the body, reads only the Prometheus section of the core
configuration and writes nothing the body uses; it is outside this model. -/
def Builder.Run (w : World) (b : Builder) : RunOutcome :=
  let protocolManager := InitProtocolManager .HTTPStrategy
  if b.beelzebubCoreConfigurations.Core.BeelzebubCloud.Enabled then
    let conf := b.beelzebubCoreConfigurations.Core.BeelzebubCloud
    let r := w.fetch conf.URI conf.AuthToken 0
    match r.2 with
    | some err => ⟨.returned (some err), b, [(conf.URI, conf.AuthToken)], []⟩
    | none =>
      if r.1.len = 0 then
        ⟨.returned (some (errorsNew "no honeypots configuration found")), b,
          [(conf.URI, conf.AuthToken)], []⟩
      else
        let b1 : Builder := { b with beelzebubServicesConfiguration := r.1 }
        let l := serviceLoop w protocolManager [] b1.beelzebubServicesConfiguration.toList
        ⟨l.1, b1, [(conf.URI, conf.AuthToken)], l.2⟩
  else
    let l := serviceLoop w protocolManager [] b.beelzebubServicesConfiguration.toList
    ⟨l.1, b, [], l.2⟩

/-! ## The cloud plugin (package `plugins`)

The plugin's source is not among the files; its tests are. The definitions of
this section follow section 4.5 of the specification. -/

/-- The transport record `HoneypotConfigResponseDTO`. -/
structure HoneypotConfigResponseDTO where
  ID : String
  Config : String
  TokenID : String
  deriving DecidableEq, Repr

/-- Modelled from the spec: the record `tracer.Event` (the trace event of the
data model), whose declaration is not among the sources. -/
structure Event where
  timestamp : String
  sourceIP : String
  protocol : String
  description : String
  command : String
  response : String
  status : String
  deriving DecidableEq, Repr

/-- A request handed to the request client, with the auth token attached. -/
inductive Request where
  | get (url : String) (token : String)
  | post (url : String) (token : String) (body : String)
  deriving DecidableEq, Repr

/-- A response of the backend: status code and body. -/
structure Response where
  StatusCode : Nat
  Body : String
  deriving DecidableEq, Repr

/-- The injectable request client: each request gets a response, or fails in
transport with an error. -/
structure Client where
  send : Request → Except GoError Response

/-- The decoders and the encoder the plugin relies on: the JSON decoder of the
response body, the YAML decoder of one `Config` field into a service
configuration, and the serializer of an event. -/
structure Codec where
  jsonDecode : String → Except GoError (List HoneypotConfigResponseDTO)
  yamlDecode : String → Except GoError BeelzebubServiceConfiguration
  encodeEvent : Event → String

/-- The plugin state: "a base URI and an auth token, established once at
construction". -/
structure beelzebubCloud where
  URI : String
  AuthToken : String
  deriving DecidableEq, Repr

/-- Modelled from the spec: the constructor `InitBeelzebubCloud(uri, authToken)`
of the plugin, whose source is not among the files. -/
def InitBeelzebubCloud (uri authToken : String) : beelzebubCloud := ⟨uri, authToken⟩

/-- What a plugin operation did: the value and error it returned and the
requests it performed on the client, in order. -/
structure PluginResult (α : Type) where
  value : α
  err : Option GoError
  requests : List Request

/-- Modelled from the spec: the test for a 2xx status code that step 3 of
`GetHoneypotsConfigurations` makes (the plugin source is not among the files). -/
def isSuccess (code : Nat) : Bool := decide (200 ≤ code) && decide (code < 300)

/-- Modelled from the spec: step 5 of `GetHoneypotsConfigurations`, whose source
is not among the files. Each DTO's `Config` is decoded in the order of the
response; the first failure aborts the whole decoding. -/
def decodeConfigs (codec : Codec) :
    List HoneypotConfigResponseDTO → Except GoError (List BeelzebubServiceConfiguration)
  | [] => .ok []
  | d :: ds =>
    match codec.yamlDecode d.Config with
    | .error e => .error e
    | .ok c =>
      match decodeConfigs codec ds with
      | .error e => .error e
      | .ok cs => .ok (c :: cs)

/-- Modelled from the spec: the plugin method `GetHoneypotsConfigurations`, whose
source is not among the files (steps 1 to 6 of section 4.5). -/
def beelzebubCloud.GetHoneypotsConfigurations (net : Client) (codec : Codec)
    (bc : beelzebubCloud) : PluginResult (Slice BeelzebubServiceConfiguration) :=
  if bc.AuthToken = "" then
    ⟨.nil, some (errorsNew "authToken is empty"), []⟩
  else
    let req := Request.get (bc.URI ++ "/honeypots") bc.AuthToken
    match net.send req with
    | .error e => ⟨.nil, some e, [req]⟩
    | .ok response =>
      if isSuccess response.StatusCode then
        match codec.jsonDecode response.Body with
        | .error e => ⟨.nil, some e, [req]⟩
        | .ok dtos =>
          match decodeConfigs codec dtos with
          | .error e => ⟨.nil, some e, [req]⟩
          | .ok cfgs => ⟨.mk cfgs, none, [req]⟩
      else
        ⟨.nil, some (errorsNew ("Response code: " ++ toString response.StatusCode
          ++ ", error: " ++ response.Body)), [req]⟩

/-- Modelled from the spec: the plugin method `SendEvent`, whose source is not
among the files (steps 1 to 3 of section 4.5). -/
def beelzebubCloud.SendEvent (net : Client) (codec : Codec) (bc : beelzebubCloud)
    (event : Event) : PluginResult Bool :=
  if bc.AuthToken = "" then
    ⟨false, some (errorsNew "authToken is empty"), []⟩
  else
    let req := Request.post (bc.URI ++ "/events") bc.AuthToken (codec.encodeEvent event)
    match net.send req with
    | .error e => ⟨false, some e, [req]⟩
    | .ok response => ⟨isSuccess response.StatusCode, none, [req]⟩

/-! ## Statement vocabulary and sample inputs -/

/-- The method `Run` gets past its cloud block and enters the service loop: the
cloud backend is disabled, or the fetch succeeded with at least one
configuration. -/
def entersServiceLoop (w : World) (b : Builder) : Prop :=
  b.beelzebubCoreConfigurations.Core.BeelzebubCloud.Enabled = false ∨
  ((w.fetch b.beelzebubCoreConfigurations.Core.BeelzebubCloud.URI
      b.beelzebubCoreConfigurations.Core.BeelzebubCloud.AuthToken 0).2 = none ∧
   (w.fetch b.beelzebubCoreConfigurations.Core.BeelzebubCloud.URI
      b.beelzebubCoreConfigurations.Core.BeelzebubCloud.AuthToken 0).1.len ≠ 0)

/-- The services a builder holds, as the sequence a `range` loop visits. -/
def Builder.services (b : Builder) : List BeelzebubServiceConfiguration :=
  b.beelzebubServicesConfiguration.toList

/-- The protocol name is one of the four the `switch` of `Run` has a case for. -/
def managed (c : BeelzebubServiceConfiguration) : Bool := (strategyFor c.Protocol).isSome

/-- A sample service configuration with the given protocol and address. -/
def sampleService (protocol address : String) : BeelzebubServiceConfiguration :=
  { ApiVersion := "v1", Protocol := protocol, Address := address, Description := "",
    Commands := [], ServerVersion := "", ServerName := "", PasswordRegex := "",
    DeadlineTimeoutSeconds := 60, Plugin := ⟨"", ""⟩ }

/-- A builder with the cloud backend disabled and the given local services. -/
def localBuilder (svcs : List BeelzebubServiceConfiguration) : Builder :=
  ⟨.mk svcs, ⟨⟨⟨false, "", ""⟩⟩⟩⟩

/-- A builder with the cloud backend enabled and the given local services. -/
def cloudBuilder (svcs : List BeelzebubServiceConfiguration) : Builder :=
  ⟨.mk svcs, ⟨⟨⟨true, "localhost:8081", "token"⟩⟩⟩⟩

/-- An environment in which an address can be bound once: starting a listener
on an address an earlier successful call already bound fails. The fetch
answers with the given pair. -/
def bindOnceWorld (answer : Slice BeelzebubServiceConfiguration × Option GoError) : World where
  fetch := fun _ _ _ => answer
  start := fun hist _ c =>
    if hist.any (fun k => k.err.isNone && decide (k.config.Address = c.Address)) then
      some (.other "*net.OpError" ("listen tcp " ++ c.Address ++ ": bind: address already in use"))
    else none

/-- An environment in which every listener starts. -/
def openWorld (answer : Slice BeelzebubServiceConfiguration × Option GoError) : World where
  fetch := fun _ _ _ => answer
  start := fun _ _ _ => none

/-- A client answering every request with status 500 and an empty body. -/
def failingClient : Client := ⟨fun _ => .ok ⟨500, ""⟩⟩

/-- A client answering every request with status 200 and the given body. -/
def okClient (body : String) : Client := ⟨fun _ => .ok ⟨200, body⟩⟩

/-- A sample codec: the body `"two"` is a sequence of two DTOs, the body
`"bad"` one of a good DTO followed by one whose `Config` is `"error"`; a
`Config` field decodes to a service on the address it names, except `"error"`. -/
def sampleCodec : Codec where
  jsonDecode := fun body =>
    if body = "two" then .ok [⟨"1", ":2222", "t"⟩, ⟨"2", ":8080", "t"⟩]
    else if body = "bad" then .ok [⟨"1", ":2222", "t"⟩, ⟨"2", "error", "t"⟩]
    else .error (.other "*json.UnmarshalTypeError" "json: cannot unmarshal")
  yamlDecode := fun config =>
    if config = "error" then .error (.other "*yaml.TypeError" "yaml: unmarshal errors")
    else .ok (sampleService "ssh" config)
  encodeEvent := fun e => e.command

/-! ## The service loop, step by step -/

theorem serviceLoop_nil (w : World) (pm : ProtocolManager) (hist : List InitCall) :
    serviceLoop w pm hist [] = (.returned none, []) := rfl

theorem serviceLoop_unmanaged (w : World) (pm : ProtocolManager) (hist : List InitCall)
    (c : BeelzebubServiceConfiguration) (rest : List BeelzebubServiceConfiguration)
    (h : strategyFor c.Protocol = none) :
    serviceLoop w pm hist (c :: rest)
      = (.fatal ("protocol " ++ c.Protocol ++ " not managed"), []) := by
  simp only [serviceLoop, h]

theorem serviceLoop_fail (w : World) (pm : ProtocolManager) (hist : List InitCall)
    (c : BeelzebubServiceConfiguration) (rest : List BeelzebubServiceConfiguration)
    (s : Strategy) (e : GoError)
    (h : strategyFor c.Protocol = some s) (he : w.start hist s c = some e) :
    serviceLoop w pm hist (c :: rest)
      = (.returned (some (errorsNew
          ("error during init protocol: " ++ c.Protocol ++ ", " ++ e.Error))),
         [⟨s, c, some e⟩]) := by
  simp only [serviceLoop, h, ProtocolManager.InitService,
    ProtocolManager.SetProtocolStrategy, he]

theorem serviceLoop_ok (w : World) (pm : ProtocolManager) (hist : List InitCall)
    (c : BeelzebubServiceConfiguration) (rest : List BeelzebubServiceConfiguration)
    (s : Strategy)
    (h : strategyFor c.Protocol = some s) (he : w.start hist s c = none) :
    serviceLoop w pm hist (c :: rest)
      = ((serviceLoop w ⟨s⟩ (hist ++ [⟨s, c, none⟩]) rest).1,
         ⟨s, c, none⟩ :: (serviceLoop w ⟨s⟩ (hist ++ [⟨s, c, none⟩]) rest).2) := by
  simp only [serviceLoop, h, ProtocolManager.InitService,
    ProtocolManager.SetProtocolStrategy, he]

/-- The three ways one turn of the loop can go. -/
theorem serviceLoop_cases (w : World) (pm : ProtocolManager) (hist : List InitCall)
    (c : BeelzebubServiceConfiguration) (rest : List BeelzebubServiceConfiguration) :
    (strategyFor c.Protocol = none ∧
      serviceLoop w pm hist (c :: rest)
        = (.fatal ("protocol " ++ c.Protocol ++ " not managed"), [])) ∨
    (∃ s e, strategyFor c.Protocol = some s ∧ w.start hist s c = some e ∧
      serviceLoop w pm hist (c :: rest)
        = (.returned (some (errorsNew
            ("error during init protocol: " ++ c.Protocol ++ ", " ++ e.Error))),
           [⟨s, c, some e⟩])) ∨
    (∃ s, strategyFor c.Protocol = some s ∧ w.start hist s c = none ∧
      serviceLoop w pm hist (c :: rest)
        = ((serviceLoop w ⟨s⟩ (hist ++ [⟨s, c, none⟩]) rest).1,
           ⟨s, c, none⟩ :: (serviceLoop w ⟨s⟩ (hist ++ [⟨s, c, none⟩]) rest).2)) := by
  cases h : strategyFor c.Protocol with
  | none => exact Or.inl ⟨rfl, serviceLoop_unmanaged w pm hist c rest h⟩
  | some s =>
    cases he : w.start hist s c with
    | none => exact Or.inr (Or.inr ⟨s, rfl, he, serviceLoop_ok w pm hist c rest s h he⟩)
    | some e =>
      exact Or.inr (Or.inl ⟨s, e, rfl, he, serviceLoop_fail w pm hist c rest s e h he⟩)

/-- Every call the loop makes is made with the strategy of the service's own
protocol selected, whatever strategy was selected when the loop began. -/
theorem serviceLoop_strategy (w : World) (svcs : List BeelzebubServiceConfiguration) :
    ∀ (pm : ProtocolManager) (hist : List InitCall),
      ∀ call ∈ (serviceLoop w pm hist svcs).2,
        strategyFor call.config.Protocol = some call.strategy := by
  induction svcs with
  | nil => intro pm hist call hc; simp [serviceLoop_nil] at hc
  | cons c rest ih =>
    intro pm hist call hc
    rcases serviceLoop_cases w pm hist c rest with ⟨_, h⟩ | ⟨s, e, hs, _, h⟩ | ⟨s, hs, _, h⟩
    · rw [h] at hc; simp at hc
    · rw [h] at hc
      simp only [List.mem_singleton] at hc
      subst hc; exact hs
    · rw [h] at hc
      simp only [List.mem_cons] at hc
      rcases hc with hc | hc
      · subst hc; exact hs
      · exact ih _ _ call hc

/-- The configurations passed to `InitService` are the first services of the
list, in declared order, one call each. -/
theorem serviceLoop_configs (w : World) (svcs : List BeelzebubServiceConfiguration) :
    ∀ (pm : ProtocolManager) (hist : List InitCall),
      (serviceLoop w pm hist svcs).2.map InitCall.config
        = svcs.take (serviceLoop w pm hist svcs).2.length := by
  induction svcs with
  | nil => intro pm hist; simp [serviceLoop_nil]
  | cons c rest ih =>
    intro pm hist
    rcases serviceLoop_cases w pm hist c rest with ⟨_, h⟩ | ⟨s, e, _, _, h⟩ | ⟨s, _, _, h⟩
    · rw [h]; simp
    · rw [h]; simp
    · rw [h]
      simp only [List.map_cons, List.length_cons, List.take_succ_cons]
      rw [ih]

/-- Each recorded error is the one the environment gave for that call after
the calls before it. -/
theorem serviceLoop_recorded (w : World) (svcs : List BeelzebubServiceConfiguration) :
    ∀ (pm : ProtocolManager) (hist : List InitCall) (i : Nat) (call : InitCall),
      (serviceLoop w pm hist svcs).2[i]? = some call →
        call.err = w.start (hist ++ (serviceLoop w pm hist svcs).2.take i)
          call.strategy call.config := by
  induction svcs with
  | nil => intro pm hist i call hc; simp [serviceLoop_nil] at hc
  | cons c rest ih =>
    intro pm hist i call hc
    rcases serviceLoop_cases w pm hist c rest with ⟨_, h⟩ | ⟨s, e, _, he, h⟩ | ⟨s, _, he, h⟩
    · rw [h] at hc; simp at hc
    · rw [h] at hc ⊢
      cases i with
      | zero =>
        simp only [List.getElem?_cons_zero, Option.some.injEq] at hc
        subst hc; simp [he]
      | succ j => simp at hc
    · rw [h] at hc ⊢
      cases i with
      | zero =>
        simp only [List.getElem?_cons_zero, Option.some.injEq] at hc
        subst hc; simp [he]
      | succ j =>
        simp only [List.getElem?_cons_succ] at hc
        have := ih _ _ j call hc
        simpa [List.append_assoc] using this

/-- Only the last call of the loop can have failed. -/
theorem serviceLoop_earlier_ok (w : World) (svcs : List BeelzebubServiceConfiguration) :
    ∀ (pm : ProtocolManager) (hist : List InitCall) (i : Nat) (call : InitCall),
      (serviceLoop w pm hist svcs).2[i]? = some call →
        i + 1 < (serviceLoop w pm hist svcs).2.length → call.err = none := by
  induction svcs with
  | nil => intro pm hist i call hc; simp [serviceLoop_nil] at hc
  | cons c rest ih =>
    intro pm hist i call hc hlt
    rcases serviceLoop_cases w pm hist c rest with ⟨_, h⟩ | ⟨s, e, _, _, h⟩ | ⟨s, _, _, h⟩
    · rw [h] at hc; simp at hc
    · rw [h] at hlt; simp at hlt
    · rw [h] at hc hlt
      cases i with
      | zero =>
        simp only [List.getElem?_cons_zero, Option.some.injEq] at hc
        subst hc; rfl
      | succ j =>
        simp only [List.getElem?_cons_succ] at hc
        simp only [List.length_cons] at hlt
        exact ih _ _ j call hc (by omega)

/-- How the loop ends, in terms of the calls it made: it ran through the whole
list with every call succeeding and returns nil; or it stopped in front of a
service with an unmanaged protocol, fatally, every call before having
succeeded; or its last call failed and it returns the formatted error. -/
theorem serviceLoop_exit (w : World) (svcs : List BeelzebubServiceConfiguration) :
    ∀ (pm : ProtocolManager) (hist : List InitCall),
      ((serviceLoop w pm hist svcs).1 = .returned none ∧
        (serviceLoop w pm hist svcs).2.length = svcs.length ∧
        ∀ call ∈ (serviceLoop w pm hist svcs).2, call.err = none) ∨
      (∃ c, svcs[(serviceLoop w pm hist svcs).2.length]? = some c ∧
        strategyFor c.Protocol = none ∧
        (serviceLoop w pm hist svcs).1
          = .fatal ("protocol " ++ c.Protocol ++ " not managed") ∧
        ∀ call ∈ (serviceLoop w pm hist svcs).2, call.err = none) ∨
      (∃ call e, (serviceLoop w pm hist svcs).2.getLast? = some call ∧
        call.err = some e ∧
        (serviceLoop w pm hist svcs).1 = .returned (some (.errorString
          ("error during init protocol: " ++ call.config.Protocol ++ ", " ++ e.Error)))) := by
  induction svcs with
  | nil => intro pm hist; left; simp [serviceLoop_nil]
  | cons c rest ih =>
    intro pm hist
    rcases serviceLoop_cases w pm hist c rest with ⟨hs, h⟩ | ⟨s, e, _, _, h⟩ | ⟨s, _, _, h⟩
    · right; left
      refine ⟨c, ?_, hs, ?_, ?_⟩ <;> rw [h] <;> simp
    · right; right
      refine ⟨⟨s, c, some e⟩, e, ?_, rfl, ?_⟩ <;> rw [h] <;> simp [errorsNew]
    · rw [h]
      rcases ih ⟨s⟩ (hist ++ [⟨s, c, none⟩]) with ⟨h1, h2, h3⟩ | ⟨d, h1, h2, h3, h4⟩ |
        ⟨call, e, h1, h2, h3⟩
      · left
        refine ⟨h1, by simp [h2], ?_⟩
        intro call hc
        simp only [List.mem_cons] at hc
        rcases hc with hc | hc
        · subst hc; rfl
        · exact h3 call hc
      · right; left
        refine ⟨d, by simpa using h1, h2, h3, ?_⟩
        intro call hc
        simp only [List.mem_cons] at hc
        rcases hc with hc | hc
        · subst hc; rfl
        · exact h4 call hc
      · right; right
        refine ⟨call, e, ?_, h2, h3⟩
        rw [List.getLast?_cons]
        simp [h1]

/-- The loop never reaches the first service with an unmanaged protocol: the
configurations it passes to `InitService` are a prefix of the managed services
standing before it. -/
theorem serviceLoop_stops_at_unmanaged (w : World) (svcs : List BeelzebubServiceConfiguration) :
    ∀ (pm : ProtocolManager) (hist : List InitCall),
      (serviceLoop w pm hist svcs).2.map InitCall.config <+: svcs.takeWhile managed := by
  induction svcs with
  | nil => intro pm hist; simp [serviceLoop_nil]
  | cons c rest ih =>
    intro pm hist
    rcases serviceLoop_cases w pm hist c rest with ⟨_, h⟩ | ⟨s, e, hs, _, h⟩ | ⟨s, hs, _, h⟩
    · rw [h]; simp
    · rw [h]
      have hm : managed c = true := by simp [managed, hs]
      simp [List.takeWhile_cons, hm]
    · rw [h]
      have hm : managed c = true := by simp [managed, hs]
      simp only [List.map_cons, List.takeWhile_cons, hm, if_true]
      exact (List.prefix_cons_inj c).2 (ih _ _)

/-- When no call fails, the loop initialises every managed service standing
before the first unmanaged one, and ends with nil if there is none, fatally on
the first unmanaged service otherwise. -/
theorem serviceLoop_all_ok (w : World) (svcs : List BeelzebubServiceConfiguration) :
    ∀ (pm : ProtocolManager) (hist : List InitCall),
      (∀ call ∈ (serviceLoop w pm hist svcs).2, call.err = none) →
        (serviceLoop w pm hist svcs).2.map InitCall.config = svcs.takeWhile managed ∧
        ((svcs.dropWhile managed = [] ∧ (serviceLoop w pm hist svcs).1 = .returned none) ∨
         (∃ c tl, svcs.dropWhile managed = c :: tl ∧
            (serviceLoop w pm hist svcs).1
              = .fatal ("protocol " ++ c.Protocol ++ " not managed"))) := by
  induction svcs with
  | nil => intro pm hist _; simp [serviceLoop_nil]
  | cons c rest ih =>
    intro pm hist hok
    rcases serviceLoop_cases w pm hist c rest with ⟨hs, h⟩ | ⟨s, e, hs, _, h⟩ | ⟨s, hs, _, h⟩
    · have hm : managed c = false := by simp [managed, hs]
      rw [h]
      refine ⟨by simp [List.takeWhile_cons, hm], Or.inr ⟨c, rest, ?_, rfl⟩⟩
      simp [List.dropWhile_cons, hm]
    · rw [h] at hok
      have := hok ⟨s, c, some e⟩ (by simp)
      simp at this
    · have hm : managed c = true := by simp [managed, hs]
      rw [h] at hok ⊢
      have hok1 : ∀ call ∈ (serviceLoop w ⟨s⟩ (hist ++ [⟨s, c, none⟩]) rest).2,
          call.err = none := fun call hc => hok call (List.mem_cons_of_mem _ hc)
      obtain ⟨h1, h2⟩ := ih ⟨s⟩ (hist ++ [⟨s, c, none⟩]) hok1
      refine ⟨by simp [List.takeWhile_cons, hm, h1], ?_⟩
      simpa [List.dropWhile_cons, hm] using h2

/-- A call that failed is the last one, and the loop returns its error
formatted with the protocol of its service. -/
theorem serviceLoop_failed_call (w : World) (svcs : List BeelzebubServiceConfiguration)
    (pm : ProtocolManager) (hist : List InitCall) (call : InitCall) (e : GoError)
    (hmem : call ∈ (serviceLoop w pm hist svcs).2) (he : call.err = some e) :
    (serviceLoop w pm hist svcs).2.getLast? = some call ∧
    (serviceLoop w pm hist svcs).1 = .returned (some (.errorString
      ("error during init protocol: " ++ call.config.Protocol ++ ", " ++ e.Error))) := by
  obtain ⟨i, hi⟩ := List.getElem?_of_mem hmem
  have hlt : i < (serviceLoop w pm hist svcs).2.length := by
    rcases List.getElem?_eq_some_iff.1 hi with ⟨hlt, _⟩
    exact hlt
  have hlast : ¬ i + 1 < (serviceLoop w pm hist svcs).2.length := by
    intro hlt2
    have := serviceLoop_earlier_ok w svcs pm hist i call hi hlt2
    rw [he] at this; cases this
  have hidx : (serviceLoop w pm hist svcs).2.length - 1 = i := by omega
  have hgl : (serviceLoop w pm hist svcs).2.getLast? = some call := by
    rw [List.getLast?_eq_getElem?, hidx, hi]
  refine ⟨hgl, ?_⟩
  rcases serviceLoop_exit w svcs pm hist with ⟨_, _, h3⟩ | ⟨_, _, _, _, h4⟩ | ⟨call2, e2, h1, h2, h3⟩
  · have := h3 call hmem
    rw [he] at this; cases this
  · have := h4 call hmem
    rw [he] at this; cases this
  · rw [hgl] at h1
    cases h1
    rw [he] at h2
    cases h2
    exact h3

/-- The loop returns nil exactly when it called `InitService` for the whole
list and no call failed. -/
theorem serviceLoop_nil_iff (w : World) (svcs : List BeelzebubServiceConfiguration)
    (pm : ProtocolManager) (hist : List InitCall) :
    (serviceLoop w pm hist svcs).1 = .returned none ↔
      ((serviceLoop w pm hist svcs).2.length = svcs.length ∧
        ∀ call ∈ (serviceLoop w pm hist svcs).2, call.err = none) := by
  rcases serviceLoop_exit w svcs pm hist with ⟨h1, h2, h3⟩ | ⟨c, h1, _, h3, _⟩ | ⟨call, e, h1, h2, h3⟩
  · exact ⟨fun _ => ⟨h2, h3⟩, fun _ => h1⟩
  · constructor
    · intro h; rw [h3] at h; cases h
    · rintro ⟨hlen, _⟩
      rw [hlen] at h1
      simp at h1
  · constructor
    · intro h; rw [h3] at h; cases h
    · rintro ⟨_, hall⟩
      have := hall call (List.mem_of_getLast?_eq_some h1)
      rw [h2] at this; cases this

/-! ## `Run` in terms of the service loop -/

/-- With the cloud backend disabled, `Run` is the service loop over the local
list; nothing is fetched and the builder is as before. -/
theorem Run_disabled (w : World) (b : Builder)
    (h : b.beelzebubCoreConfigurations.Core.BeelzebubCloud.Enabled = false) :
    b.Run w = ⟨(serviceLoop w (InitProtocolManager .HTTPStrategy) []
                  b.beelzebubServicesConfiguration.toList).1, b, [],
               (serviceLoop w (InitProtocolManager .HTTPStrategy) []
                  b.beelzebubServicesConfiguration.toList).2⟩ := by
  simp [Builder.Run, h]

/-- With the cloud backend enabled and a failing fetch, `Run` returns the
error of the fetch at once. -/
theorem Run_fetch_failed (w : World) (b : Builder) (e : GoError)
    (h : b.beelzebubCoreConfigurations.Core.BeelzebubCloud.Enabled = true)
    (hf : (w.fetch b.beelzebubCoreConfigurations.Core.BeelzebubCloud.URI
            b.beelzebubCoreConfigurations.Core.BeelzebubCloud.AuthToken 0).2 = some e) :
    b.Run w = ⟨.returned (some e), b,
      [(b.beelzebubCoreConfigurations.Core.BeelzebubCloud.URI,
        b.beelzebubCoreConfigurations.Core.BeelzebubCloud.AuthToken)], []⟩ := by
  simp [Builder.Run, h, hf]

/-- With the cloud backend enabled and a fetch that succeeds with nothing,
`Run` returns the "no honeypots configuration found" error at once. -/
theorem Run_fetch_empty (w : World) (b : Builder)
    (h : b.beelzebubCoreConfigurations.Core.BeelzebubCloud.Enabled = true)
    (hf : (w.fetch b.beelzebubCoreConfigurations.Core.BeelzebubCloud.URI
            b.beelzebubCoreConfigurations.Core.BeelzebubCloud.AuthToken 0).2 = none)
    (hl : (w.fetch b.beelzebubCoreConfigurations.Core.BeelzebubCloud.URI
            b.beelzebubCoreConfigurations.Core.BeelzebubCloud.AuthToken 0).1.len = 0) :
    b.Run w = ⟨.returned (some (errorsNew "no honeypots configuration found")), b,
      [(b.beelzebubCoreConfigurations.Core.BeelzebubCloud.URI,
        b.beelzebubCoreConfigurations.Core.BeelzebubCloud.AuthToken)], []⟩ := by
  simp [Builder.Run, h, hf, hl]

/-- With the cloud backend enabled and a fetch that succeeds with at least one
configuration, `Run` stores the fetched sequence and is the service loop over
it. -/
theorem Run_fetch_some (w : World) (b : Builder)
    (h : b.beelzebubCoreConfigurations.Core.BeelzebubCloud.Enabled = true)
    (hf : (w.fetch b.beelzebubCoreConfigurations.Core.BeelzebubCloud.URI
            b.beelzebubCoreConfigurations.Core.BeelzebubCloud.AuthToken 0).2 = none)
    (hl : (w.fetch b.beelzebubCoreConfigurations.Core.BeelzebubCloud.URI
            b.beelzebubCoreConfigurations.Core.BeelzebubCloud.AuthToken 0).1.len ≠ 0) :
    b.Run w = ⟨(serviceLoop w (InitProtocolManager .HTTPStrategy) []
                  (w.fetch b.beelzebubCoreConfigurations.Core.BeelzebubCloud.URI
                    b.beelzebubCoreConfigurations.Core.BeelzebubCloud.AuthToken 0).1.toList).1,
               { b with beelzebubServicesConfiguration :=
                  (w.fetch b.beelzebubCoreConfigurations.Core.BeelzebubCloud.URI
                    b.beelzebubCoreConfigurations.Core.BeelzebubCloud.AuthToken 0).1 },
               [(b.beelzebubCoreConfigurations.Core.BeelzebubCloud.URI,
                 b.beelzebubCoreConfigurations.Core.BeelzebubCloud.AuthToken)],
               (serviceLoop w (InitProtocolManager .HTTPStrategy) []
                  (w.fetch b.beelzebubCoreConfigurations.Core.BeelzebubCloud.URI
                    b.beelzebubCoreConfigurations.Core.BeelzebubCloud.AuthToken 0).1.toList).2⟩ := by
  simp [Builder.Run, h, hf, hl]

/-- Once `Run` enters the service loop, its exit and its calls are those of
the loop over the service list the builder holds afterwards. -/
theorem Run_enters (w : World) (b : Builder) (h : entersServiceLoop w b) :
    (b.Run w).exit = (serviceLoop w (InitProtocolManager .HTTPStrategy) []
        (b.Run w).builder.services).1 ∧
    (b.Run w).calls = (serviceLoop w (InitProtocolManager .HTTPStrategy) []
        (b.Run w).builder.services).2 := by
  cases hen : b.beelzebubCoreConfigurations.Core.BeelzebubCloud.Enabled with
  | false => rw [Run_disabled w b hen]; exact ⟨rfl, rfl⟩
  | true =>
    rcases h with h | ⟨hf, hl⟩
    · rw [hen] at h; cases h
    · rw [Run_fetch_some w b hen hf hl]; exact ⟨rfl, rfl⟩

/-- The calls of `Run` are always those of a service loop over the list the
builder holds afterwards, or none at all. -/
theorem Run_calls (w : World) (b : Builder) :
    (b.Run w).calls = [] ∨
    (b.Run w).calls = (serviceLoop w (InitProtocolManager .HTTPStrategy) []
        (b.Run w).builder.beelzebubServicesConfiguration.toList).2 := by
  cases hen : b.beelzebubCoreConfigurations.Core.BeelzebubCloud.Enabled with
  | false => right; rw [Run_disabled w b hen]
  | true =>
    cases hf : (w.fetch b.beelzebubCoreConfigurations.Core.BeelzebubCloud.URI
            b.beelzebubCoreConfigurations.Core.BeelzebubCloud.AuthToken 0).2 with
    | some e => left; rw [Run_fetch_failed w b e hen hf]
    | none =>
      by_cases hl : (w.fetch b.beelzebubCoreConfigurations.Core.BeelzebubCloud.URI
            b.beelzebubCoreConfigurations.Core.BeelzebubCloud.AuthToken 0).1.len = 0
      · left; rw [Run_fetch_empty w b hen hf hl]
      · right; rw [Run_fetch_some w b hen hf hl]

/-! ## The cloud block of `Run` -/

/-- C2: with the cloud backend enabled, when the fetch succeeds with an empty
sequence (nil or of length zero), `Run` returns the error whose message is
exactly "no honeypots configuration found", calls `InitService` for no service
and leaves the builder's service list as it was. -/
theorem C2_empty_fetch_is_error (w : World) (b : Builder)
    (hen : b.beelzebubCoreConfigurations.Core.BeelzebubCloud.Enabled = true)
    (hok : (w.fetch b.beelzebubCoreConfigurations.Core.BeelzebubCloud.URI
            b.beelzebubCoreConfigurations.Core.BeelzebubCloud.AuthToken 0).2 = none)
    (hlen : (w.fetch b.beelzebubCoreConfigurations.Core.BeelzebubCloud.URI
            b.beelzebubCoreConfigurations.Core.BeelzebubCloud.AuthToken 0).1.len = 0) :
    (∃ e, (b.Run w).exit = .returned (some e) ∧
      e.Error = "no honeypots configuration found") ∧
    (b.Run w).calls = [] ∧
    (b.Run w).builder.beelzebubServicesConfiguration = b.beelzebubServicesConfiguration := by
  rw [Run_fetch_empty w b hen hok hlen]
  exact ⟨⟨_, rfl, rfl⟩, rfl, rfl⟩

/-- C2 at a sample input: the cloud answers with an empty sequence while one
local service is configured. -/
theorem C2_empty_fetch_is_error_witness :
    (∃ e, ((cloudBuilder [sampleService "http" ":8080"]).Run (openWorld (.mk [], none))).exit
        = .returned (some e) ∧ e.Error = "no honeypots configuration found") ∧
    ((cloudBuilder [sampleService "http" ":8080"]).Run (openWorld (.mk [], none))).calls = [] ∧
    ((cloudBuilder [sampleService "http" ":8080"]).Run
        (openWorld (.mk [], none))).builder.beelzebubServicesConfiguration
      = .mk [sampleService "http" ":8080"] :=
  C2_empty_fetch_is_error (openWorld (.mk [], none))
    (cloudBuilder [sampleService "http" ":8080"]) rfl rfl rfl

/-- C8: with the cloud backend enabled, when the fetch fails with error `e`,
`Run` returns that very error, having fetched exactly once, having called
`InitService` for no service, and with the builder (its locally loaded
services included) untouched and unused. -/
theorem C8_fetch_error_returned_as_is (w : World) (b : Builder) (e : GoError)
    (hen : b.beelzebubCoreConfigurations.Core.BeelzebubCloud.Enabled = true)
    (hfail : (w.fetch b.beelzebubCoreConfigurations.Core.BeelzebubCloud.URI
            b.beelzebubCoreConfigurations.Core.BeelzebubCloud.AuthToken 0).2 = some e) :
    (b.Run w).exit = .returned (some e) ∧
    (b.Run w).fetches = [(b.beelzebubCoreConfigurations.Core.BeelzebubCloud.URI,
        b.beelzebubCoreConfigurations.Core.BeelzebubCloud.AuthToken)] ∧
    (b.Run w).fetches.length = 1 ∧
    (b.Run w).calls = [] ∧
    (b.Run w).builder = b := by
  rw [Run_fetch_failed w b e hen hfail]
  exact ⟨rfl, rfl, rfl, rfl, rfl⟩

/-- C8 at a sample input: the fetch is refused while two local services are
configured; the error comes back as it is and no local service is started. -/
theorem C8_fetch_error_returned_as_is_witness :
    ((cloudBuilder [sampleService "http" ":8080", sampleService "ssh" ":2222"]).Run
        (openWorld (.nil, some (.other "*url.Error" "connection refused")))).exit
      = .returned (some (.other "*url.Error" "connection refused")) ∧
    ((cloudBuilder [sampleService "http" ":8080", sampleService "ssh" ":2222"]).Run
        (openWorld (.nil, some (.other "*url.Error" "connection refused")))).fetches.length = 1 ∧
    ((cloudBuilder [sampleService "http" ":8080", sampleService "ssh" ":2222"]).Run
        (openWorld (.nil, some (.other "*url.Error" "connection refused")))).calls = [] :=
  have h := C8_fetch_error_returned_as_is
    (openWorld (.nil, some (.other "*url.Error" "connection refused")))
    (cloudBuilder [sampleService "http" ":8080", sampleService "ssh" ":2222"])
    (.other "*url.Error" "connection refused") rfl rfl
  ⟨h.1, h.2.2.1, h.2.2.2.1⟩

/-- C10: the cloud-enabled flag alone decides where the started services come
from. Enabled, with a fetch that succeeds with a non-empty sequence: one fetch
is made, the builder's list becomes the fetched sequence, the configurations
passed to `InitService` are a prefix of the fetched sequence, and exit and
calls are the same whatever the local list was. Disabled: no fetch is made,
the builder is unchanged, the configurations passed to `InitService` are a
prefix of the local list, and exit and calls are the same whatever a fetch
would have answered. -/
theorem C10_source_of_services (w : World) (b : Builder) :
    (b.beelzebubCoreConfigurations.Core.BeelzebubCloud.Enabled = true →
      (w.fetch b.beelzebubCoreConfigurations.Core.BeelzebubCloud.URI
            b.beelzebubCoreConfigurations.Core.BeelzebubCloud.AuthToken 0).2 = none →
      (w.fetch b.beelzebubCoreConfigurations.Core.BeelzebubCloud.URI
            b.beelzebubCoreConfigurations.Core.BeelzebubCloud.AuthToken 0).1.len ≠ 0 →
      (b.Run w).fetches.length = 1 ∧
      (b.Run w).builder.beelzebubServicesConfiguration
        = (w.fetch b.beelzebubCoreConfigurations.Core.BeelzebubCloud.URI
            b.beelzebubCoreConfigurations.Core.BeelzebubCloud.AuthToken 0).1 ∧
      (b.Run w).calls.map InitCall.config
        <+: (w.fetch b.beelzebubCoreConfigurations.Core.BeelzebubCloud.URI
            b.beelzebubCoreConfigurations.Core.BeelzebubCloud.AuthToken 0).1.toList ∧
      ∀ l : Slice BeelzebubServiceConfiguration,
        (Builder.Run w { b with beelzebubServicesConfiguration := l }).calls = (b.Run w).calls ∧
        (Builder.Run w { b with beelzebubServicesConfiguration := l }).exit = (b.Run w).exit) ∧
    (b.beelzebubCoreConfigurations.Core.BeelzebubCloud.Enabled = false →
      (b.Run w).fetches = [] ∧
      (b.Run w).builder = b ∧
      (b.Run w).calls.map InitCall.config <+: b.beelzebubServicesConfiguration.toList ∧
      ∀ w2 : World, w2.start = w.start →
        (b.Run w2).calls = (b.Run w).calls ∧ (b.Run w2).exit = (b.Run w).exit) := by
  constructor
  · intro hen hok hlen
    refine ⟨?_, ?_, ?_, ?_⟩
    · rw [Run_fetch_some w b hen hok hlen]; rfl
    · rw [Run_fetch_some w b hen hok hlen]
    · rw [Run_fetch_some w b hen hok hlen]
      exact (serviceLoop_configs w _ _ _) ▸ List.take_prefix _ _
    · intro l
      rw [Run_fetch_some w b hen hok hlen,
        Run_fetch_some w { b with beelzebubServicesConfiguration := l } hen hok hlen]
      exact ⟨rfl, rfl⟩
  · intro hen
    refine ⟨?_, ?_, ?_, ?_⟩
    · rw [Run_disabled w b hen]
    · rw [Run_disabled w b hen]
    · rw [Run_disabled w b hen]
      exact (serviceLoop_configs w _ _ _) ▸ List.take_prefix _ _
    · intro w2 hw
      rw [Run_disabled w b hen, Run_disabled w2 b hen]
      have hloop : ∀ (svcs : List BeelzebubServiceConfiguration) (pm : ProtocolManager)
          (hist : List InitCall), serviceLoop w2 pm hist svcs = serviceLoop w pm hist svcs := by
        intro svcs
        induction svcs with
        | nil => intro pm hist; rfl
        | cons c rest ih =>
          intro pm hist
          simp only [serviceLoop, ProtocolManager.InitService, hw, ih]
      simp only [hloop, and_self]

/-- C10 at two sample inputs: with the cloud enabled the fetched services are
started and the local one is not; with the cloud disabled the local one is
started and no fetch is made. -/
theorem C10_source_of_services_witness :
    (((cloudBuilder [sampleService "tcp" ":9"]).Run
        (openWorld (.mk [sampleService "ssh" ":2222", sampleService "http" ":8080"], none))
      ).builder.beelzebubServicesConfiguration
        = .mk [sampleService "ssh" ":2222", sampleService "http" ":8080"]) ∧
    (((localBuilder [sampleService "tcp" ":9"]).Run
        (openWorld (.mk [sampleService "ssh" ":2222", sampleService "http" ":8080"], none))
      ).fetches = []) :=
  ⟨((C10_source_of_services
      (openWorld (.mk [sampleService "ssh" ":2222", sampleService "http" ":8080"], none))
      (cloudBuilder [sampleService "tcp" ":9"])).1 rfl rfl (by decide)).2.1,
   ((C10_source_of_services
      (openWorld (.mk [sampleService "ssh" ":2222", sampleService "http" ":8080"], none))
      (localBuilder [sampleService "tcp" ":9"])).2 rfl).1⟩

/-! ## The service loop of `Run` -/

/-- C3: at every `InitService` call `Run` makes, the call at position `i` is
for the service at position `i` of the list and the strategy selected on the
manager is the one the `switch` maps from that service's own protocol ("http"
to HTTP, "ssh" to SSH, "tcp" to TCP, "mysql" to MySQL); the same holds of the
loop started from any manager state, so neither the default given at
construction nor the services before play a part. -/
theorem C3_strategy_of_own_protocol (w : World) (b : Builder) :
    (∀ (i : Nat) (call : InitCall), (b.Run w).calls[i]? = some call →
      (b.Run w).builder.services[i]? = some call.config ∧
      strategyFor call.config.Protocol = some call.strategy) ∧
    (∀ (pm : ProtocolManager) (hist : List InitCall)
        (svcs : List BeelzebubServiceConfiguration),
      ∀ call ∈ (serviceLoop w pm hist svcs).2,
        strategyFor call.config.Protocol = some call.strategy) ∧
    (strategyFor "http" = some .HTTPStrategy ∧ strategyFor "ssh" = some .SSHStrategy ∧
     strategyFor "tcp" = some .TCPStrategy ∧ strategyFor "mysql" = some .MySQLStrategy) := by
  refine ⟨?_, fun pm hist svcs => serviceLoop_strategy w svcs pm hist, by decide⟩
  intro i call hc
  rcases Run_calls w b with h | h
  · rw [h] at hc; simp at hc
  · have hmem : call ∈ (b.Run w).calls := List.getElem?_mem hc
    refine ⟨?_, ?_⟩
    · have hcfg := serviceLoop_configs w (b.Run w).builder.services
        (InitProtocolManager .HTTPStrategy) []
      unfold Builder.services at hcfg ⊢
      rw [← h] at hcfg
      have h1 : ((b.Run w).calls.map InitCall.config)[i]? = some call.config := by
        simp [List.getElem?_map, hc]
      rw [hcfg, List.getElem?_take] at h1
      split at h1
      · exact h1
      · cases h1
    · rw [h] at hmem
      exact serviceLoop_strategy w _ _ _ call hmem

/-- C9: once `Run` enters its service loop, the configurations passed to
`InitService` are the first services of the list in declared order, one call
each, every one of them with a managed protocol and with the error recorded
that the environment gave; only the last call can have failed. The prefix
ends in one of three ways: it is the whole list, no call failed and `Run`
returns nil; or the next service has an unmanaged protocol, no call failed and
the run ends fatally; or the last call failed. `Run` returns nil if and only if
the prefix is the whole list and no call failed; and when the call for a
service of protocol `p` fails with cause `c`, the error `Run` returns has
exactly the message "error during init protocol: " ++ p ++ ", " ++ message
of c. -/
theorem C9_calls_follow_declared_order (w : World) (b : Builder)
    (h : entersServiceLoop w b) :
    (b.Run w).calls.map InitCall.config
      = (b.Run w).builder.services.take (b.Run w).calls.length ∧
    (∀ call ∈ (b.Run w).calls, managed call.config = true) ∧
    (∀ (i : Nat) (call : InitCall), (b.Run w).calls[i]? = some call →
      call.err = w.start ((b.Run w).calls.take i) call.strategy call.config) ∧
    (∀ (i : Nat) (call : InitCall), (b.Run w).calls[i]? = some call →
      i + 1 < (b.Run w).calls.length → call.err = none) ∧
    (((b.Run w).calls.length = (b.Run w).builder.services.length ∧
        (∀ call ∈ (b.Run w).calls, call.err = none) ∧
        (b.Run w).exit = .returned none) ∨
     (∃ c, (b.Run w).builder.services[(b.Run w).calls.length]? = some c ∧
        managed c = false ∧
        (∀ call ∈ (b.Run w).calls, call.err = none) ∧
        (b.Run w).exit = .fatal ("protocol " ++ c.Protocol ++ " not managed")) ∨
     (∃ call e, (b.Run w).calls.getLast? = some call ∧ call.err = some e ∧
        (b.Run w).exit = .returned (some (.errorString
          ("error during init protocol: " ++ call.config.Protocol ++ ", " ++ e.Error))))) ∧
    ((b.Run w).exit = .returned none ↔
      ((b.Run w).calls.length = (b.Run w).builder.services.length ∧
        ∀ call ∈ (b.Run w).calls, call.err = none)) ∧
    (∀ call ∈ (b.Run w).calls, ∀ c : GoError, call.err = some c →
      (b.Run w).calls.getLast? = some call ∧
      ∃ err, (b.Run w).exit = .returned (some err) ∧
        err.Error = "error during init protocol: " ++ call.config.Protocol ++ ", "
          ++ c.Error) := by
  obtain ⟨hexit, hcalls⟩ := Run_enters w b h
  refine ⟨?_, ?_, ?_, ?_, ?_, ?_, ?_⟩
  · have := serviceLoop_configs w (b.Run w).builder.services
      (InitProtocolManager .HTTPStrategy) []
    rw [← hcalls] at this
    exact this
  · intro call hc
    rw [hcalls] at hc
    simp [managed, serviceLoop_strategy w _ _ _ call hc]
  · intro i call hc
    have := serviceLoop_recorded w (b.Run w).builder.services
      (InitProtocolManager .HTTPStrategy) [] i call
    rw [← hcalls] at this
    simpa using this hc
  · intro i call hc hlt
    have := serviceLoop_earlier_ok w (b.Run w).builder.services
      (InitProtocolManager .HTTPStrategy) [] i call
    rw [← hcalls] at this
    exact this hc hlt
  · have := serviceLoop_exit w (b.Run w).builder.services
      (InitProtocolManager .HTTPStrategy) []
    rw [← hcalls, ← hexit] at this
    rcases this with ⟨h1, h2, h3⟩ | ⟨c, h1, h2, h3, h4⟩ | ⟨call, e, h1, h2, h3⟩
    · exact Or.inl ⟨h2, h3, h1⟩
    · exact Or.inr (Or.inl ⟨c, h1, by simp [managed, h2], h4, h3⟩)
    · exact Or.inr (Or.inr ⟨call, e, h1, h2, h3⟩)
  · have := serviceLoop_nil_iff w (b.Run w).builder.services
      (InitProtocolManager .HTTPStrategy) []
    rw [← hcalls, ← hexit] at this
    exact this
  · intro call hc c he
    have := serviceLoop_failed_call w (b.Run w).builder.services
      (InitProtocolManager .HTTPStrategy) [] call c
    rw [← hcalls, ← hexit] at this
    obtain ⟨h1, h2⟩ := this hc he
    exact ⟨h1, _, h2, rfl⟩

/-- C9 at a sample input: three local services, the second on the address of
the first, in an environment where an address binds once. The calls are those
for the first two services and `Run` returns the error of the second. -/
theorem C9_calls_follow_declared_order_witness :
    entersServiceLoop (bindOnceWorld (.nil, none))
      (localBuilder [sampleService "http" ":8080", sampleService "ssh" ":8080",
        sampleService "tcp" ":9"]) ∧
    ((localBuilder [sampleService "http" ":8080", sampleService "ssh" ":8080",
        sampleService "tcp" ":9"]).Run (bindOnceWorld (.nil, none))).calls.map InitCall.config
      = ((localBuilder [sampleService "http" ":8080", sampleService "ssh" ":8080",
          sampleService "tcp" ":9"]).Run (bindOnceWorld (.nil, none))).builder.services.take
        ((localBuilder [sampleService "http" ":8080", sampleService "ssh" ":8080",
          sampleService "tcp" ":9"]).Run (bindOnceWorld (.nil, none))).calls.length ∧
    ((localBuilder [sampleService "http" ":8080", sampleService "ssh" ":8080",
        sampleService "tcp" ":9"]).Run (bindOnceWorld (.nil, none))).calls.length = 2 ∧
    ((localBuilder [sampleService "http" ":8080", sampleService "ssh" ":8080",
        sampleService "tcp" ":9"]).Run (bindOnceWorld (.nil, none))).exit
      = .returned (some (.errorString
          "error during init protocol: ssh, listen tcp :8080: bind: address already in use")) :=
  ⟨Or.inl rfl,
   (C9_calls_follow_declared_order (bindOnceWorld (.nil, none))
      (localBuilder [sampleService "http" ":8080", sampleService "ssh" ":8080",
        sampleService "tcp" ":9"]) (Or.inl rfl)).1,
   by decide, by decide⟩

/-- C1, as stated, fails: with the local list `[http on :8080, ftp on :21]`
the list holds a service of unmanaged protocol, yet `Run` calls `InitService`
for the HTTP service declared before it, and only then ends fatally. -/
theorem C1_counterexample :
    (∃ c ∈ [sampleService "http" ":8080", sampleService "ftp" ":21"], managed c = false) ∧
    ((localBuilder [sampleService "http" ":8080", sampleService "ftp" ":21"]).Run
        (openWorld (.nil, none))).calls
      = [⟨.HTTPStrategy, sampleService "http" ":8080", none⟩] ∧
    ((localBuilder [sampleService "http" ":8080", sampleService "ftp" ":21"]).Run
        (openWorld (.nil, none))).exit = .fatal "protocol ftp not managed" := by
  refine ⟨⟨sampleService "ftp" ":21", by simp, by decide⟩, by decide, by decide⟩

/-- C1, amended: when the list `Run` loops over holds a service of unmanaged
protocol, `Run` never returns nil and calls `InitService` neither for the first
such service nor for any service after it: the configurations passed are a
prefix of the managed services declared before it. If none of these calls
fails, they are exactly those services and the run ends fatally with
"protocol p not managed" for the first unmanaged protocol `p`; if the first
service of the list is the unmanaged one, no call is made at all. -/
theorem C1_unmanaged_protocol_stops_loop (w : World) (b : Builder)
    (h : entersServiceLoop w b)
    (hbad : ∃ c ∈ (b.Run w).builder.services, managed c = false) :
    (b.Run w).calls.map InitCall.config <+: (b.Run w).builder.services.takeWhile managed ∧
    (b.Run w).exit ≠ .returned none ∧
    ((∀ call ∈ (b.Run w).calls, call.err = none) →
      (b.Run w).calls.map InitCall.config = (b.Run w).builder.services.takeWhile managed ∧
      ∃ c tl, (b.Run w).builder.services.dropWhile managed = c :: tl ∧
        (b.Run w).exit = .fatal ("protocol " ++ c.Protocol ++ " not managed")) ∧
    (∀ c tl, (b.Run w).builder.services = c :: tl → managed c = false →
      (b.Run w).calls = [] ∧
      (b.Run w).exit = .fatal ("protocol " ++ c.Protocol ++ " not managed")) := by
  obtain ⟨hexit, hcalls⟩ := Run_enters w b h
  have hdrop : (b.Run w).builder.services.dropWhile managed ≠ [] := by
    intro hnil
    obtain ⟨c, hc, hm⟩ := hbad
    have := List.dropWhile_eq_nil_iff.1 hnil c hc
    rw [hm] at this; cases this
  have hall := serviceLoop_all_ok w (b.Run w).builder.services
    (InitProtocolManager .HTTPStrategy) []
  rw [← hcalls, ← hexit] at hall
  refine ⟨?_, ?_, ?_, ?_⟩
  · have := serviceLoop_stops_at_unmanaged w (b.Run w).builder.services
      (InitProtocolManager .HTTPStrategy) []
    rw [← hcalls] at this
    exact this
  · intro hnil
    have hiff := serviceLoop_nil_iff w (b.Run w).builder.services
      (InitProtocolManager .HTTPStrategy) []
    rw [← hcalls, ← hexit] at hiff
    obtain ⟨_, hok⟩ := hiff.1 hnil
    rcases (hall hok).2 with ⟨hd, _⟩ | ⟨c, tl, _, hf⟩
    · exact hdrop hd
    · rw [hf] at hnil; cases hnil
  · intro hok
    obtain ⟨h1, h2⟩ := hall hok
    refine ⟨h1, ?_⟩
    rcases h2 with ⟨hd, _⟩ | h2
    · exact absurd hd hdrop
    · exact h2
  · intro c tl hs hm
    have hnone : strategyFor c.Protocol = none := by
      cases hsf : strategyFor c.Protocol with
      | none => rfl
      | some s => simp [managed, hsf] at hm
    have := serviceLoop_unmanaged w (InitProtocolManager .HTTPStrategy) [] c tl hnone
    rw [hexit, hcalls, hs, this]
    exact ⟨rfl, rfl⟩

/-- C1, amended, at a sample input: `[http, ftp, ssh]` with every listener
starting; only the HTTP service is initialised and the run ends fatally. -/
theorem C1_unmanaged_protocol_stops_loop_witness :
    entersServiceLoop (openWorld (.nil, none))
      (localBuilder [sampleService "http" ":8080", sampleService "ftp" ":21",
        sampleService "ssh" ":2222"]) ∧
    ((localBuilder [sampleService "http" ":8080", sampleService "ftp" ":21",
        sampleService "ssh" ":2222"]).Run (openWorld (.nil, none))).exit ≠ .returned none ∧
    ((localBuilder [sampleService "http" ":8080", sampleService "ftp" ":21",
        sampleService "ssh" ":2222"]).Run (openWorld (.nil, none))).calls.map InitCall.config
      = [sampleService "http" ":8080"] :=
  ⟨Or.inl rfl,
   (C1_unmanaged_protocol_stops_loop (openWorld (.nil, none))
      (localBuilder [sampleService "http" ":8080", sampleService "ftp" ":21",
        sampleService "ssh" ":2222"]) (Or.inl rfl)
      ⟨sampleService "ftp" ":21", by decide, by decide⟩).2.1,
   by decide⟩

/-- C7, as stated, fails: with the local list `[http on :8080, ssh on :8080]`
two services declare the same address, yet `Run` calls `InitService` for both;
the first listener starts, and `Run` fails only afterwards, because the
environment refuses the second bind. -/
theorem C7_counterexample :
    (sampleService "http" ":8080").Address = (sampleService "ssh" ":8080").Address ∧
    ((localBuilder [sampleService "http" ":8080", sampleService "ssh" ":8080"]).Run
        (bindOnceWorld (.nil, none))).calls
      = [⟨.HTTPStrategy, sampleService "http" ":8080", none⟩,
         ⟨.SSHStrategy, sampleService "ssh" ":8080",
           some (.other "*net.OpError" "listen tcp :8080: bind: address already in use")⟩] ∧
    ((localBuilder [sampleService "http" ":8080", sampleService "ssh" ":8080"]).Run
        (bindOnceWorld (.nil, none))).exit
      = .returned (some (.errorString
          "error during init protocol: ssh, listen tcp :8080: bind: address already in use")) := by
  refine ⟨rfl, by decide, by decide⟩

/-- C7, amended: when the services at positions `i < j` of the list `Run`
loops over declare the same address, `Run` makes no address check of its own.
Whenever it reaches `InitService` for the later of the two, the call for the
earlier one has been made and has succeeded; `Run` ends otherwise than with nil
only through an unmanaged protocol or a failing `InitService` call; and if
every protocol is managed and no call fails, `Run` returns nil having called
`InitService` for every service of the list, both of the pair included. -/
theorem C7_no_duplicate_address_check (w : World) (b : Builder)
    (h : entersServiceLoop w b) (i j : Nat) (ci cj : BeelzebubServiceConfiguration)
    (hij : i < j)
    (hi : (b.Run w).builder.services[i]? = some ci)
    (hj : (b.Run w).builder.services[j]? = some cj)
    (_haddr : ci.Address = cj.Address) :
    (∀ callj, (b.Run w).calls[j]? = some callj →
      callj.config = cj ∧
      ∃ calli, (b.Run w).calls[i]? = some calli ∧ calli.config = ci ∧ calli.err = none) ∧
    ((b.Run w).exit ≠ .returned none →
      (∃ c ∈ (b.Run w).builder.services, managed c = false) ∨
      (∃ call ∈ (b.Run w).calls, call.err ≠ none)) ∧
    ((∀ c ∈ (b.Run w).builder.services, managed c = true) →
      (∀ call ∈ (b.Run w).calls, call.err = none) →
      (b.Run w).exit = .returned none ∧
      (b.Run w).calls.map InitCall.config = (b.Run w).builder.services) := by
  obtain ⟨hexit, hcalls⟩ := Run_enters w b h
  have hcfg := serviceLoop_configs w (b.Run w).builder.services
    (InitProtocolManager .HTTPStrategy) []
  rw [← hcalls] at hcfg
  have hat : ∀ (k : Nat) (call : InitCall), (b.Run w).calls[k]? = some call →
      (b.Run w).builder.services[k]? = some call.config := by
    intro k call hk
    have h1 : ((b.Run w).calls.map InitCall.config)[k]? = some call.config := by
      simp [List.getElem?_map, hk]
    rw [hcfg, List.getElem?_take] at h1
    split at h1
    · exact h1
    · cases h1
  refine ⟨?_, ?_, ?_⟩
  · intro callj hcj
    have hjc := hat j callj hcj
    rw [hj] at hjc
    have hjlt : j < (b.Run w).calls.length := by
      rcases List.getElem?_eq_some_iff.1 hcj with ⟨hlt, _⟩
      exact hlt
    have hilt : i < (b.Run w).calls.length := by omega
    refine ⟨(Option.some.inj hjc).symm, (b.Run w).calls[i], by simp [hilt], ?_, ?_⟩
    · have hic := hat i (b.Run w).calls[i] (by simp [hilt])
      rw [hi] at hic
      exact (Option.some.inj hic).symm
    · have := serviceLoop_earlier_ok w (b.Run w).builder.services
        (InitProtocolManager .HTTPStrategy) [] i (b.Run w).calls[i]
      rw [← hcalls] at this
      exact this (by simp [hilt]) (by omega)
  · intro hne
    have := serviceLoop_exit w (b.Run w).builder.services
      (InitProtocolManager .HTTPStrategy) []
    rw [← hcalls, ← hexit] at this
    rcases this with ⟨h1, _, _⟩ | ⟨c, h1, h2, _, _⟩ | ⟨call, e, h1, h2, _⟩
    · exact absurd h1 hne
    · exact Or.inl ⟨c, List.getElem?_mem h1, by simp [managed, h2]⟩
    · exact Or.inr ⟨call, List.mem_of_getLast?_eq_some h1, by simp [h2]⟩
  · intro hman hok
    have hall := serviceLoop_all_ok w (b.Run w).builder.services
      (InitProtocolManager .HTTPStrategy) []
    rw [← hcalls, ← hexit] at hall
    obtain ⟨h1, h2⟩ := hall hok
    have htw : (b.Run w).builder.services.takeWhile managed = (b.Run w).builder.services :=
      List.takeWhile_eq_self_iff.2 hman
    have hdw : (b.Run w).builder.services.dropWhile managed = [] :=
      List.dropWhile_eq_nil_iff.2 hman
    rw [htw] at h1
    refine ⟨?_, h1⟩
    rcases h2 with ⟨_, h2⟩ | ⟨c, tl, h2, _⟩
    · exact h2
    · rw [hdw] at h2; cases h2

/-- C7, amended, at a sample input: `[http on :8080, ssh on :8080]` in an
environment where an address binds once; the call for the second service is
reached and the first has been initialised before it. -/
theorem C7_no_duplicate_address_check_witness :
    entersServiceLoop (bindOnceWorld (.nil, none))
      (localBuilder [sampleService "http" ":8080", sampleService "ssh" ":8080"]) ∧
    (∃ calli, ((localBuilder [sampleService "http" ":8080", sampleService "ssh" ":8080"]).Run
          (bindOnceWorld (.nil, none))).calls[0]? = some calli ∧
        calli.config = sampleService "http" ":8080" ∧ calli.err = none) ∧
    ((localBuilder [sampleService "http" ":8080", sampleService "ssh" ":8080"]).Run
        (bindOnceWorld (.nil, none))).calls.length = 2 :=
  ⟨Or.inl rfl,
   ((C7_no_duplicate_address_check (bindOnceWorld (.nil, none))
      (localBuilder [sampleService "http" ":8080", sampleService "ssh" ":8080"])
      (Or.inl rfl) 0 1 (sampleService "http" ":8080") (sampleService "ssh" ":8080")
      (by decide) rfl rfl rfl).1
        ⟨.SSHStrategy, sampleService "ssh" ":8080",
          some (.other "*net.OpError" "listen tcp :8080: bind: address already in use")⟩
        (by decide)).2,
   by decide⟩

/-! ## The cloud plugin -/

/-- Decoding succeeds with `cfgs` when every DTO decodes to the configuration
at its position. -/
theorem decodeConfigs_ok (codec : Codec) :
    ∀ (dtos : List HoneypotConfigResponseDTO) (cfgs : List BeelzebubServiceConfiguration),
      List.Forall₂ (fun d c => codec.yamlDecode d.Config = .ok c) dtos cfgs →
        decodeConfigs codec dtos = .ok cfgs := by
  intro dtos cfgs hall
  induction hall with
  | nil => rfl
  | cons hd _ ih => simp only [decodeConfigs, hd, ih]

/-- Decoding fails as soon as one DTO, at any position, does not decode. -/
theorem decodeConfigs_error (codec : Codec) :
    ∀ (dtos : List HoneypotConfigResponseDTO),
      (∃ d ∈ dtos, ∃ e, codec.yamlDecode d.Config = .error e) →
        ∃ e, decodeConfigs codec dtos = .error e := by
  intro dtos
  induction dtos with
  | nil => rintro ⟨d, hd, _⟩; simp at hd
  | cons d ds ih =>
    rintro ⟨x, hx, e, he⟩
    cases hdec : codec.yamlDecode d.Config with
    | error e1 => exact ⟨e1, by simp only [decodeConfigs, hdec]⟩
    | ok c =>
      have hxds : x ∈ ds := by
        rcases List.mem_cons.1 hx with hx | hx
        · subst hx; rw [hdec] at he; cases he
        · exact hx
      obtain ⟨e2, he2⟩ := ih ⟨x, hxds, e, he⟩
      exact ⟨e2, by simp only [decodeConfigs, hdec, he2]⟩

/-- When every DTO decodes, there is a sequence of configurations, one per DTO
in the order of the DTOs, that decoding yields. -/
theorem decodeConfigs_total (codec : Codec) :
    ∀ (dtos : List HoneypotConfigResponseDTO),
      (∀ d ∈ dtos, ∃ c, codec.yamlDecode d.Config = .ok c) →
        ∃ cfgs, List.Forall₂ (fun d c => codec.yamlDecode d.Config = .ok c) dtos cfgs := by
  intro dtos
  induction dtos with
  | nil => intro _; exact ⟨[], List.Forall₂.nil⟩
  | cons d ds ih =>
    intro hall
    obtain ⟨c, hc⟩ := hall d (List.mem_cons_self _ _)
    obtain ⟨cs, hcs⟩ := ih (fun x hx => hall x (List.mem_cons_of_mem _ hx))
    exact ⟨c :: cs, List.Forall₂.cons hc hcs⟩

/-- C4: for a plugin built with an empty auth token (whatever the URI, the
empty one included), for every event, request client and codec, `SendEvent`
and `GetHoneypotsConfigurations` both fail with the error whose message is
exactly "authToken is empty", `GetHoneypotsConfigurations` returns a nil
result, and neither performs a request on the client. -/
theorem C4_empty_token_rejected (uri : String) (net : Client) (codec : Codec)
    (event : Event) :
    (∃ e, ((InitBeelzebubCloud uri "").SendEvent net codec event).err = some e ∧
      e.Error = "authToken is empty") ∧
    ((InitBeelzebubCloud uri "").SendEvent net codec event).value = false ∧
    ((InitBeelzebubCloud uri "").SendEvent net codec event).requests = [] ∧
    (∃ e, ((InitBeelzebubCloud uri "").GetHoneypotsConfigurations net codec).err = some e ∧
      e.Error = "authToken is empty") ∧
    ((InitBeelzebubCloud uri "").GetHoneypotsConfigurations net codec).value = .nil ∧
    ((InitBeelzebubCloud uri "").GetHoneypotsConfigurations net codec).requests = [] := by
  simp [InitBeelzebubCloud, beelzebubCloud.SendEvent,
    beelzebubCloud.GetHoneypotsConfigurations, errorsNew, GoError.Error]

/-- C5: for every non-empty auth token, when the backend answers the fetch with
a status code outside 200..299 and any body, `GetHoneypotsConfigurations`
returns a nil result and the error whose message is exactly
"Response code: " ++ the decimal code ++ ", error: " ++ the body, after one
request. -/
theorem C5_non_2xx_error_message (net : Client) (codec : Codec) (bc : beelzebubCloud)
    (code : Nat) (body : String)
    (htok : bc.AuthToken ≠ "")
    (hsend : net.send (.get (bc.URI ++ "/honeypots") bc.AuthToken) = .ok ⟨code, body⟩)
    (hcode : ¬ (200 ≤ code ∧ code < 300)) :
    (bc.GetHoneypotsConfigurations net codec).value = .nil ∧
    (∃ e, (bc.GetHoneypotsConfigurations net codec).err = some e ∧
      e.Error = "Response code: " ++ toString code ++ ", error: " ++ body) ∧
    (bc.GetHoneypotsConfigurations net codec).requests.length = 1 := by
  have hs : isSuccess code = false := by
    simp only [isSuccess, Bool.and_eq_false_iff, decide_eq_false_iff_not]
    by_cases h1 : 200 ≤ code
    · exact Or.inr (fun h2 => hcode ⟨h1, h2⟩)
    · exact Or.inl h1
  simp [beelzebubCloud.GetHoneypotsConfigurations, htok, hsend, hs, errorsNew, GoError.Error]

/-- C5 at the input of the test: status 500 with an empty body gives the
message "Response code: 500, error: ". -/
theorem C5_non_2xx_error_message_witness :
    ((InitBeelzebubCloud "localhost:8081" "key").GetHoneypotsConfigurations
        failingClient sampleCodec).value = .nil ∧
    (∃ e, ((InitBeelzebubCloud "localhost:8081" "key").GetHoneypotsConfigurations
        failingClient sampleCodec).err = some e ∧
      e.Error = "Response code: 500, error: ") :=
  have h := C5_non_2xx_error_message failingClient sampleCodec
    (InitBeelzebubCloud "localhost:8081" "key") 500 "" (by decide) rfl (by decide)
  ⟨h.1, h.2.1.elim fun e he => ⟨e, he.1, he.2.trans (by decide)⟩⟩

/-- C6: for every non-empty auth token and every 2xx response whose body
decodes to the DTO sequence `dtos`, `GetHoneypotsConfigurations` is
all-or-nothing. If the `Config` of some DTO, at any position, fails to decode,
the call returns an error and a nil result; if every `Config` decodes, it
returns no error and the decoded configurations, one per DTO, in the order of
the response. -/
theorem C6_all_or_nothing (net : Client) (codec : Codec) (bc : beelzebubCloud)
    (code : Nat) (body : String) (dtos : List HoneypotConfigResponseDTO)
    (htok : bc.AuthToken ≠ "")
    (hsend : net.send (.get (bc.URI ++ "/honeypots") bc.AuthToken) = .ok ⟨code, body⟩)
    (hcode : 200 ≤ code ∧ code < 300)
    (hjson : codec.jsonDecode body = .ok dtos) :
    ((∃ d ∈ dtos, ∃ e, codec.yamlDecode d.Config = .error e) →
      (bc.GetHoneypotsConfigurations net codec).value = .nil ∧
      ∃ e, (bc.GetHoneypotsConfigurations net codec).err = some e) ∧
    ((∀ d ∈ dtos, ∃ c, codec.yamlDecode d.Config = .ok c) →
      ∃ cfgs, (bc.GetHoneypotsConfigurations net codec).value = .mk cfgs ∧
        (bc.GetHoneypotsConfigurations net codec).err = none ∧
        List.Forall₂ (fun d c => codec.yamlDecode d.Config = .ok c) dtos cfgs) ∧
    (∀ cfgs, List.Forall₂ (fun d c => codec.yamlDecode d.Config = .ok c) dtos cfgs →
      (bc.GetHoneypotsConfigurations net codec).value = .mk cfgs ∧
      (bc.GetHoneypotsConfigurations net codec).err = none) := by
  have hs : isSuccess code = true := by
    simp [isSuccess, hcode.1, hcode.2]
  have hgood : ∀ cfgs, List.Forall₂ (fun d c => codec.yamlDecode d.Config = .ok c) dtos cfgs →
      (bc.GetHoneypotsConfigurations net codec).value = .mk cfgs ∧
      (bc.GetHoneypotsConfigurations net codec).err = none := by
    intro cfgs hall
    have hd := decodeConfigs_ok codec dtos cfgs hall
    simp [beelzebubCloud.GetHoneypotsConfigurations, htok, hsend, hs, hjson, hd]
  refine ⟨?_, ?_, hgood⟩
  · intro hbad
    obtain ⟨e, he⟩ := decodeConfigs_error codec dtos hbad
    simp [beelzebubCloud.GetHoneypotsConfigurations, htok, hsend, hs, hjson, he]
  · intro hall
    obtain ⟨cfgs, hcfgs⟩ := decodeConfigs_total codec dtos hall
    exact ⟨cfgs, (hgood cfgs hcfgs).1, (hgood cfgs hcfgs).2, hcfgs⟩

/-- C6 at a sample input: a 200 response of two DTOs of which the second does
not decode; the result is nil although the first DTO decodes. -/
theorem C6_all_or_nothing_witness :
    ((InitBeelzebubCloud "localhost:8081" "key").GetHoneypotsConfigurations
        (okClient "bad") sampleCodec).value = .nil ∧
    ∃ e, ((InitBeelzebubCloud "localhost:8081" "key").GetHoneypotsConfigurations
        (okClient "bad") sampleCodec).err = some e :=
  (C6_all_or_nothing (okClient "bad") sampleCodec (InitBeelzebubCloud "localhost:8081" "key")
    200 "bad" [⟨"1", ":2222", "t"⟩, ⟨"2", "error", "t"⟩] (by decide) rfl (by decide) rfl).1
    ⟨⟨"2", "error", "t"⟩, by simp, .other "*yaml.TypeError" "yaml: unmarshal errors", rfl⟩

end Honeypot
